import Mathlib

/-!
Verification of the dataset-viewer state machine and answer verifier
(`src/scripts/datasetViewer.js`).

The `DatasetViewer` class is shallowly embedded as a pure state type
`ViewerState` together with one Lean function per JS method.  JS conventions
are translated as follows:

* `currentSetting` ranges over the strings `''`, `'forward'`, `'inverse'`,
  embedded as the enum `Setting` (`snone` stands for `''`).
* `currentTaskName` is a JS string where `''` means "all tasks"; it is kept as
  a `String` so that the JS truthiness tests (`if (this.currentTaskName)`)
  translate to `≠ ""` exactly.
* `currentStepLength` is a JS string that is either `''` or `String(n)` for a
  step length `n` previously put in a `<select>` option; it is embedded as
  `Option Nat` (`none` for `''`), with `parseInt (String n) = n`.
* `currentIndex` is a JS number; it is embedded as `Int` so that claims about
  it staying non-negative are not true by type.
* `Array.prototype.indexOf` (which returns `-1` on a miss) is `indexOfInt`.
* The step `<select>`'s option list always mirrors `availableStepLengths`:
  every write to `availableStepLengths` (in `populateFilterOptions` and
  `populateStepLengthsForCurrentFilters`) immediately rewrites the options.
  `updateFilterUI`, which reads the options, is therefore modelled against
  `availableStepLengths`.
* DOM-only statements (`innerHTML`, `classList`, `console.log`, setting
  `select.value`) have no state effect and are dropped.
-/

namespace DatasetViewer

/-- Character-list version of a "starts with" test, used for the substring
matching `String.prototype.includes` performs in `getSettingFromType`. -/
def leadsWith : List Char → List Char → Bool
  | [], _ => true
  | _ :: _, [] => false
  | p :: ps, c :: cs => p == c && leadsWith ps cs

/-- `hasSub pat l` is true iff `pat` occurs as a contiguous run inside `l`. -/
def hasSub (pat : List Char) : List Char → Bool
  | [] => pat.isEmpty
  | c :: cs => leadsWith pat (c :: cs) || hasSub pat cs

/-- JS `s.includes(pat)`. -/
def containsSub (s pat : String) : Bool := hasSub pat.toList s.toList

/-- The three values of the setting selector: `''`, `'forward'`, `'inverse'`. -/
inductive Setting where
  | snone
  | forward
  | inverse
deriving DecidableEq, Repr

/-- One JSONL record of the dataset.  `key_frame_ids` is `none` when the field
is absent from the record (JS `undefined`); a present-but-empty array is
`some []` (truthy in JS). -/
structure Sample where
  id : String
  type : String
  task_name : String
  key_frame_ids : Option (List String)
  gt_answer : List Int
deriving DecidableEq, Repr

/-- `getSettingFromType` (datasetViewer.js lines 169-173): substring match on
the `type` field, `'forward'` checked first. -/
def getSettingFromType (type : String) : Setting :=
  if containsSub type "forward" then .forward
  else if containsSub type "inverse" then .inverse
  else .snone

/-- The step length the filter derives for a sample:
`item.key_frame_ids ? item.key_frame_ids.length : 0` (line 190).  A present
empty array is truthy in JS, so both `none` and `some []` give `0`. -/
def stepCountOf (s : Sample) : Nat :=
  match s.key_frame_ids with
  | some l => l.length
  | none => 0

/-- The mutable fields of the `DatasetViewer` class (lines 4-18). -/
structure ViewerState where
  allData : List Sample
  filteredData : List Sample
  currentIndex : Int
  currentSetting : Setting
  currentTaskName : String
  currentStepLength : Option Nat
  availableTaskNames : List String
  availableStepLengths : List Nat
  showAnswer : Bool
deriving DecidableEq, Repr

/-- The per-sample predicate of `filterData` (lines 176-195), with its three
early-return tests in source order. -/
def matchesFilter (set : Setting) (task : String) (step : Option Nat)
    (s : Sample) : Bool :=
  if set ≠ Setting.snone && getSettingFromType s.type ≠ set then false
  else if task ≠ "" && s.task_name ≠ task then false
  else
    match step with
    | some n => stepCountOf s == n
    | none => true

/-- `filterData` (lines 175-201): recompute `filteredData` from `allData`,
reset `currentIndex` to 0 and hide the answer. -/
def filterData (σ : ViewerState) : ViewerState :=
  { σ with
    filteredData := σ.allData.filter
      (matchesFilter σ.currentSetting σ.currentTaskName σ.currentStepLength)
    currentIndex := 0
    showAnswer := false }

/-- `Array.from(set).sort((a,b) => a-b)` over the collected values: the sorted
list of the distinct elements. -/
def sortedDistinct (l : List Nat) : List Nat :=
  List.insertionSort (· ≤ ·) l.dedup

/-- The step lengths `populateStepLengthsForCurrentFilters` (lines 114-136)
collects for a `(setting, taskName)` pair: lengths of `key_frame_ids` over the
samples passing the setting and task tests that have a `key_frame_ids` field. -/
def stepLengthsFor (data : List Sample) (set : Setting) (task : String) :
    List Nat :=
  sortedDistinct ((data.filter fun s =>
    (set == Setting.snone || getSettingFromType s.type == set)
    && (task == "" || s.task_name == task)
    && s.key_frame_ids.isSome).map stepCountOf)

/-- `populateStepLengthsForCurrentFilters` (lines 114-157): recompute
`availableStepLengths` for the current setting/task, then default
`currentStepLength` to the first entry whenever it is unset or no longer
available. -/
def populateStepLengthsForCurrentFilters (σ : ViewerState) : ViewerState :=
  let L := stepLengthsFor σ.allData σ.currentSetting σ.currentTaskName
  let σ1 := { σ with availableStepLengths := L }
  if 0 < L.length then
    match σ.currentStepLength with
    | none => { σ1 with currentStepLength := L.head? }
    | some n => if n ∈ L then σ1 else { σ1 with currentStepLength := L.head? }
  else σ1

/-- `updateFilterUI` (lines 441-460), step-selector part: if the current step
length is not among the options (which mirror `availableStepLengths`) and
there is at least one option, reset it to the first option and re-filter. -/
def updateFilterUI (σ : ViewerState) : ViewerState :=
  let hasCurrentStep :=
    match σ.currentStepLength with
    | none => false
    | some n => decide (n ∈ σ.availableStepLengths)
  if hasCurrentStep then σ
  else if 0 < σ.availableStepLengths.length then
    filterData { σ with currentStepLength := σ.availableStepLengths.head? }
  else σ

/-- JS `Array.prototype.indexOf`: position of the first occurrence, `-1` when
the element is absent. -/
def indexOfInt {α : Type} [DecidableEq α] (l : List α) (a : α) : Int :=
  if a ∈ l then (l.indexOf a : Int) else -1

/-- The fixed setting cycle `['', 'forward', 'inverse']` (lines 363, 426). -/
def settingsList : List Setting := [.snone, .forward, .inverse]

/-- `moveToNextSetting` (lines 362-373). -/
def moveToNextSetting (σ : ViewerState) : Bool × ViewerState :=
  let i := settingsList.indexOf σ.currentSetting
  if i + 1 < settingsList.length then
    (true, updateFilterUI (filterData
      { σ with currentSetting := settingsList.getD (i + 1) .snone }))
  else (false, σ)

/-- `moveToNextTask` (lines 338-360). -/
def moveToNextTask (σ : ViewerState) : Bool × ViewerState :=
  if σ.currentTaskName ≠ "" then
    let tasks := σ.availableTaskNames
    let i := indexOfInt tasks σ.currentTaskName
    if i < (tasks.length : Int) - 1 then
      (true, updateFilterUI (populateStepLengthsForCurrentFilters (filterData
        { σ with
          currentTaskName := tasks.getD (i + 1).toNat ""
          currentStepLength := none })))
    else moveToNextSetting { σ with currentTaskName := "" }
  else moveToNextSetting σ

/-- `moveToNextCategory` (lines 317-336). -/
def moveToNextCategory (σ : ViewerState) : Bool × ViewerState :=
  match σ.currentStepLength with
  | some n =>
    let steps := σ.availableStepLengths
    let i := indexOfInt steps n
    if i < (steps.length : Int) - 1 then
      (true, updateFilterUI (filterData
        { σ with currentStepLength := some (steps.getD (i + 1).toNat 0) }))
    else moveToNextTask { σ with currentStepLength := none }
  | none => moveToNextTask σ

/-- `navigateNext` (lines 284-298). -/
def navigateNext (σ : ViewerState) : ViewerState :=
  if σ.currentIndex < (σ.filteredData.length : Int) - 1 then
    { σ with currentIndex := σ.currentIndex + 1, showAnswer := false }
  else (moveToNextCategory σ).2

/-- `moveToPreviousSetting` (lines 425-438). -/
def moveToPreviousSetting (σ : ViewerState) : Bool × ViewerState :=
  let i := settingsList.indexOf σ.currentSetting
  if 0 < i then
    let σ1 := filterData
      { σ with currentSetting := settingsList.getD (i - 1) .snone }
    (true, updateFilterUI
      { σ1 with currentIndex := max 0 ((σ1.filteredData.length : Int) - 1) })
  else (false, σ)

/-- `moveToPreviousTask` (lines 399-423). -/
def moveToPreviousTask (σ : ViewerState) : Bool × ViewerState :=
  if σ.currentTaskName ≠ "" then
    let tasks := σ.availableTaskNames
    let i := indexOfInt tasks σ.currentTaskName
    if 0 < i then
      let σ1 := populateStepLengthsForCurrentFilters (filterData
        { σ with
          currentTaskName := tasks.getD (i - 1).toNat ""
          currentStepLength := none })
      (true, updateFilterUI
        { σ1 with currentIndex := max 0 ((σ1.filteredData.length : Int) - 1) })
    else moveToPreviousSetting { σ with currentTaskName := "" }
  else moveToPreviousSetting σ

/-- `moveToPreviousCategory` (lines 376-397). -/
def moveToPreviousCategory (σ : ViewerState) : Bool × ViewerState :=
  match σ.currentStepLength with
  | some n =>
    let steps := σ.availableStepLengths
    let i := indexOfInt steps n
    if 0 < i then
      let σ1 := filterData
        { σ with currentStepLength := some (steps.getD (i - 1).toNat 0) }
      (true, updateFilterUI
        { σ1 with currentIndex := max 0 ((σ1.filteredData.length : Int) - 1) })
    else moveToPreviousTask { σ with currentStepLength := none }
  | none => moveToPreviousTask σ

/-- `navigatePrevious` (lines 300-314). -/
def navigatePrevious (σ : ViewerState) : ViewerState :=
  if 0 < σ.currentIndex then
    { σ with currentIndex := σ.currentIndex - 1, showAnswer := false }
  else (moveToPreviousCategory σ).2

/-- The `change` handler of the setting selector (lines 211-219). -/
def onSettingChange (v : Setting) (σ : ViewerState) : ViewerState :=
  filterData (populateStepLengthsForCurrentFilters
    { σ with currentSetting := v, currentStepLength := none })

/-- The `change` handler of the task selector (lines 225-233). -/
def onTaskChange (t : String) (σ : ViewerState) : ViewerState :=
  filterData (populateStepLengthsForCurrentFilters
    { σ with currentTaskName := t, currentStepLength := none })

/-- The `change` handler of the step selector (lines 239-243). -/
def onStepChange (v : Option Nat) (σ : ViewerState) : ViewerState :=
  filterData { σ with currentStepLength := v }

/-- The sample `updateUI` (lines 462-488) renders:
`this.filteredData[this.currentIndex]`, or the no-data display when the
filtered list is empty or the index is out of bounds. -/
def displayedSample (σ : ViewerState) : Option Sample :=
  if σ.currentIndex < 0 then none else σ.filteredData.get? σ.currentIndex.toNat

/-- The filter predicate as claim C1 words it: setting is none or the derived
setting equals it; taskName unset or equal; stepCount unset or equal to the
length of `key_frame_ids` (0 when the field is absent). -/
def claimMatches (set : Setting) (task : String) (step : Option Nat)
    (s : Sample) : Prop :=
  (set = Setting.snone ∨ getSettingFromType s.type = set) ∧
  (task = "" ∨ s.task_name = task) ∧
  (step = none ∨ step = some (stepCountOf s))

instance (set : Setting) (task : String) (step : Option Nat) (s : Sample) :
    Decidable (claimMatches set task step s) := by
  unfold claimMatches; infer_instance

/-- The invariant claim C8 states on `FilterState`, as an executable test:
`currentStepLength`, when set, belongs to the step counts observed among
samples matching the current setting and task name. -/
def stepInvariantB (σ : ViewerState) : Bool :=
  match σ.currentStepLength with
  | none => true
  | some n =>
    decide (n ∈ stepLengthsFor σ.allData σ.currentSetting σ.currentTaskName)

/-! ### Answer verifier (`verifyAnswer`, lines 528-564)

`JSON.parse` is platform code, not repository code: its result is embedded as
`Option JVal` (`none` = the `catch` branch for unparsable input).  Numbers are
rationals so that `Number.isInteger` is a real test.  The final comparison
`JSON.stringify(userAnswer) === JSON.stringify(gtAnswer)` is taken on a ground
truth that is a list of integers (the data model's `gt_answer`), where
stringify equality coincides with element-wise list equality. -/

/-- A parsed JSON value. -/
inductive JVal where
  | jnull
  | jbool (b : Bool)
  | jnum (q : ℚ)
  | jstr (s : String)
  | jarr (elems : List JVal)
  | jobj (fields : List (String × JVal))

/-- The element test of line 549:
`Number.isInteger(num) && num >= 1 && num <= 10`. -/
def elemOk : JVal → Bool
  | .jnum q => q.den == 1 && decide ((1 : ℚ) ≤ q) && decide (q ≤ (10 : ℚ))
  | _ => false

/-- The integer value of an element that passed `elemOk`. -/
def jint : JVal → Int
  | .jnum q => q.num
  | _ => 0

/-- The three error messages `verifyAnswer` can render. -/
inductive VerifyError where
  | malformedInput
  | notASequence
  | outOfRange
deriving DecidableEq, Repr

/-- `verifyAnswer` (lines 528-564): parse failure, then the array test, then
the per-element range test, then the stringify comparison; `Bool` is the
correct/incorrect verdict. -/
def verifyAnswer (input : Option JVal) (gt : List Int) :
    Except VerifyError Bool :=
  match input with
  | none => .error .malformedInput
  | some (.jarr l) =>
    if l.all elemOk then .ok (l.map jint == gt) else .error .outOfRange
  | some _ => .error .notASequence

/-- `v` is a parsed array. -/
def isJArr : JVal → Bool
  | .jarr _ => true
  | _ => false

/-! ### Concrete fixtures

Small datasets and states used by the closed counterexamples and witnesses.
Their field values are chosen to be reachable through the viewer's own
operations (load-order lists, sorted option lists, filtered lists that agree
with the recorded filter state). -/

/-- A forward-setting sample of task `t` with 1 key frame. -/
def sF1 : Sample :=
  { id := "a", type := "forward_wm", task_name := "t",
    key_frame_ids := some ["k1"], gt_answer := [1] }

/-- A forward-setting sample of task `t` with 2 key frames. -/
def sF2 : Sample :=
  { id := "b", type := "forward_wm", task_name := "t",
    key_frame_ids := some ["k1", "k2"], gt_answer := [1, 2] }

/-- A second forward-setting sample of task `t` with 1 key frame. -/
def sF1b : Sample :=
  { id := "c", type := "forward_wm", task_name := "t",
    key_frame_ids := some ["k9"], gt_answer := [1] }

/-- A forward-setting sample of task `t` with 3 key frames. -/
def sF3 : Sample :=
  { id := "d", type := "forward_wm", task_name := "t",
    key_frame_ids := some ["k1", "k2", "k3"], gt_answer := [1, 2, 3] }

/-- An inverse-setting sample of task `u` with 2 key frames. -/
def sI2 : Sample :=
  { id := "e", type := "inverse_wm", task_name := "u",
    key_frame_ids := some ["k1", "k2"], gt_answer := [2, 1] }

/-- Start of the C5 run: all-settings view, task `t`, first step length,
first item. -/
def stRun : ViewerState :=
  { allData := [sF1, sF2], filteredData := [sF1], currentIndex := 0,
    currentSetting := .snone, currentTaskName := "t",
    currentStepLength := some 1, availableTaskNames := ["t"],
    availableStepLengths := [1, 2], showAnswer := false }

/-- A state about to take a task-level forward move (`t` to `u`). -/
def stTask : ViewerState :=
  { allData := [sF1, sI2], filteredData := [sF1], currentIndex := 0,
    currentSetting := .snone, currentTaskName := "t",
    currentStepLength := none, availableTaskNames := ["t", "u"],
    availableStepLengths := [1], showAnswer := false }

/-- A state about to take a setting-level forward move. -/
def stSet : ViewerState :=
  { allData := [sF1], filteredData := [sF1], currentIndex := 0,
    currentSetting := .snone, currentTaskName := "",
    currentStepLength := none, availableTaskNames := ["t"],
    availableStepLengths := [], showAnswer := false }

/-- The global end position: last setting, no task or step active. -/
def stDone : ViewerState :=
  { allData := [sF1, sI2], filteredData := [sI2], currentIndex := 0,
    currentSetting := .inverse, currentTaskName := "",
    currentStepLength := none, availableTaskNames := ["t", "u"],
    availableStepLengths := [2], showAnswer := false }

/-- A mid-list position (index 1 of 3) for the advance/retreat round trip. -/
def stMid : ViewerState :=
  { allData := [sF1, sF2, sF1b], filteredData := [sF1, sF2, sF1b],
    currentIndex := 1, currentSetting := .forward, currentTaskName := "t",
    currentStepLength := none, availableTaskNames := ["t"],
    availableStepLengths := [1, 2], showAnswer := false }

/-- The last item of the last category: setting `inverse`, last task `u`,
last step length, last index. -/
def stEnd : ViewerState :=
  { allData := [sF1, sI2], filteredData := [sI2], currentIndex := 0,
    currentSetting := .inverse, currentTaskName := "u",
    currentStepLength := some 2, availableTaskNames := ["t", "u"],
    availableStepLengths := [2], showAnswer := false }

/-- First item of the first task of setting `forward`, with everything before
it in category order non-empty; used against `moveToPreviousCategory`. -/
def stPrev : ViewerState :=
  { allData := [sF1, sF2, sF1b], filteredData := [sF1, sF2, sF1b],
    currentIndex := 0, currentSetting := .forward, currentTaskName := "t",
    currentStepLength := none, availableTaskNames := ["t"],
    availableStepLengths := [1, 2], showAnswer := false }

/-- A state one step-level category after `stPrev`-like positions: step 2
selected, about to move back to step 1. -/
def stPrevStep : ViewerState :=
  { allData := [sF1, sF2, sF1b], filteredData := [sF2], currentIndex := 0,
    currentSetting := .snone, currentTaskName := "t",
    currentStepLength := some 2, availableTaskNames := ["t"],
    availableStepLengths := [1, 2], showAnswer := false }

/-- First item of task `u` in the all-settings view, with the preceding task
`t` non-empty; used for the task-level backward move. -/
def stPrevTask : ViewerState :=
  { allData := [sF1, sF2, sI2], filteredData := [sI2], currentIndex := 0,
    currentSetting := .snone, currentTaskName := "u",
    currentStepLength := none, availableTaskNames := ["t", "u"],
    availableStepLengths := [2], showAnswer := false }

/-- End of the all-settings view over a mixed forward/inverse dataset, where
the next setting (`forward`) has no length-2 samples. -/
def stMix : ViewerState :=
  { allData := [sF3, sI2], filteredData := [sF3, sI2], currentIndex := 1,
    currentSetting := .snone, currentTaskName := "",
    currentStepLength := none, availableTaskNames := ["t", "u"],
    availableStepLengths := [2, 3], showAnswer := false }

/-- C2: `verifyAnswer` yields `MalformedInput` exactly on unparsable input;
otherwise `NotASequence` exactly when the parsed value is not an array;
otherwise `OutOfRange` exactly when some element fails the integer-in-[1,10]
test (independently of the ground truth, so out-of-range input is an error
even when equal to it); otherwise a success verdict that is `true` exactly
when the parsed array equals the ground truth element-wise (order- and
length-sensitive), both verdicts being non-error outcomes. -/
theorem verifyAnswer_spec (input : Option JVal) (gt : List Int) :
    (verifyAnswer input gt = .error .malformedInput ↔ input = none)
    ∧ (verifyAnswer input gt = .error .notASequence ↔
        ∃ v, input = some v ∧ isJArr v = false)
    ∧ (verifyAnswer input gt = .error .outOfRange ↔
        ∃ l, input = some (.jarr l) ∧ l.all elemOk = false)
    ∧ (verifyAnswer input gt = .ok true ↔
        ∃ l, input = some (.jarr l) ∧ l.all elemOk = true ∧ l.map jint = gt)
    ∧ (verifyAnswer input gt = .ok false ↔
        ∃ l, input = some (.jarr l) ∧ l.all elemOk = true ∧ l.map jint ≠ gt) := by
  match input with
  | none => simp [verifyAnswer]
  | some (.jarr l) =>
    cases h : l.all elemOk <;>
        simp [verifyAnswer, isJArr, h, beq_iff_eq, -List.all_eq_true] <;>
      first
        | exact List.all_eq_true.mp h
        | (obtain ⟨x, hx, hnx⟩ := List.all_eq_false.mp h
           exact ⟨x, hx, by simpa using hnx⟩)
  | some .jnull => simp [verifyAnswer, isJArr]
  | some (.jbool b) => simp [verifyAnswer, isJArr]
  | some (.jnum q) => simp [verifyAnswer, isJArr]
  | some (.jstr s) => simp [verifyAnswer, isJArr]
  | some (.jobj f) => simp [verifyAnswer, isJArr]

/-! ### C1: the filter -/

theorem matchesFilter_iff_claimMatches (set : Setting) (task : String)
    (step : Option Nat) (s : Sample) :
    matchesFilter set task step s = true ↔ claimMatches set task step s := by
  unfold matchesFilter claimMatches
  cases step <;>
    (simp [stepCountOf, Bool.and_eq_true, beq_iff_eq]; try tauto)

/-- C1: `filterData` produces exactly the subsequence of `allData`, in load
order, of the samples satisfying the conjunction of the three active
predicates (setting none or derived setting equal; taskName unset or equal;
stepCount unset or equal to the `key_frame_ids` length, absent field counting
as 0). -/
theorem filterData_spec (σ : ViewerState) :
    (filterData σ).filteredData =
      σ.allData.filter (fun s => decide
        (claimMatches σ.currentSetting σ.currentTaskName σ.currentStepLength s))
    ∧ (filterData σ).filteredData.Sublist σ.allData := by
  constructor
  · show σ.allData.filter _ = σ.allData.filter _
    apply List.filter_congr
    intro s _
    rw [Bool.eq_iff_iff, matchesFilter_iff_claimMatches]
    simp
  · exact List.filter_sublist σ.allData

/-! ### Projection lemmas for the state operations -/

@[simp] theorem filterData_allData (σ : ViewerState) :
    (filterData σ).allData = σ.allData := rfl

@[simp] theorem filterData_currentIndex (σ : ViewerState) :
    (filterData σ).currentIndex = 0 := rfl

@[simp] theorem filterData_currentSetting (σ : ViewerState) :
    (filterData σ).currentSetting = σ.currentSetting := rfl

@[simp] theorem filterData_currentTaskName (σ : ViewerState) :
    (filterData σ).currentTaskName = σ.currentTaskName := rfl

@[simp] theorem filterData_currentStepLength (σ : ViewerState) :
    (filterData σ).currentStepLength = σ.currentStepLength := rfl

@[simp] theorem filterData_availableTaskNames (σ : ViewerState) :
    (filterData σ).availableTaskNames = σ.availableTaskNames := rfl

@[simp] theorem filterData_availableStepLengths (σ : ViewerState) :
    (filterData σ).availableStepLengths = σ.availableStepLengths := rfl

@[simp] theorem filterData_filteredData (σ : ViewerState) :
    (filterData σ).filteredData = σ.allData.filter
      (matchesFilter σ.currentSetting σ.currentTaskName σ.currentStepLength) :=
  rfl

/-- `populateStepLengthsForCurrentFilters` with an unset step length:
recompute the options and default to their head. -/
theorem populate_of_none (σ : ViewerState) (h : σ.currentStepLength = none) :
    populateStepLengthsForCurrentFilters σ =
      { σ with
        availableStepLengths :=
          stepLengthsFor σ.allData σ.currentSetting σ.currentTaskName
        currentStepLength :=
          (stepLengthsFor σ.allData σ.currentSetting σ.currentTaskName).head? } := by
  obtain ⟨ad, fd, ci, cs, ct, csl, atn, asl, sa⟩ := σ
  simp only at h
  subst h
  unfold populateStepLengthsForCurrentFilters
  cases hL : stepLengthsFor ad cs ct with
  | nil => simp [hL]
  | cons a as => simp [hL]

/-- `updateFilterUI` is the identity when the current step length is among
the available options. -/
theorem updateFilterUI_of_mem (σ : ViewerState) (n : Nat)
    (h : σ.currentStepLength = some n) (hm : n ∈ σ.availableStepLengths) :
    updateFilterUI σ = σ := by
  unfold updateFilterUI
  rw [h]
  simp [hm]

/-- `updateFilterUI` is the identity when the current step length is the
default head of the available options. -/
theorem updateFilterUI_of_head (σ : ViewerState)
    (h : σ.currentStepLength = σ.availableStepLengths.head?) :
    updateFilterUI σ = σ := by
  cases hA : σ.availableStepLengths with
  | nil =>
    rw [hA] at h
    unfold updateFilterUI
    rw [h, hA]
    simp
  | cons a as =>
    rw [hA] at h
    exact updateFilterUI_of_mem σ a h (by rw [hA]; exact List.mem_cons_self a as)

/-- `updateFilterUI` with an unset step length and a non-empty option list:
reset the step length to the first option and re-filter. -/
theorem updateFilterUI_of_none (σ : ViewerState)
    (h : σ.currentStepLength = none) (hA : σ.availableStepLengths ≠ []) :
    updateFilterUI σ =
      filterData { σ with currentStepLength := σ.availableStepLengths.head? } := by
  unfold updateFilterUI
  rw [h]
  simp [List.length_pos.mpr hA]

theorem withTask_eq_self (τ : ViewerState) (h : τ.currentTaskName = "") :
    { τ with currentTaskName := "" } = τ := by
  obtain ⟨ad, fd, ci, cs, ct, csl, atn, asl, sa⟩ := τ
  simp only at h
  subst h
  rfl

theorem withStep_eq_self (τ : ViewerState) (h : τ.currentStepLength = none) :
    { τ with currentStepLength := none } = τ := by
  obtain ⟨ad, fd, ci, cs, ct, csl, atn, asl, sa⟩ := τ
  simp only at h
  subst h
  rfl

theorem navigateNext_of_lt (τ : ViewerState)
    (h : τ.currentIndex < (τ.filteredData.length : Int) - 1) :
    navigateNext τ =
      { τ with currentIndex := τ.currentIndex + 1, showAnswer := false } := by
  unfold navigateNext
  exact if_pos h

theorem navigatePrevious_of_pos (τ : ViewerState) (h : 0 < τ.currentIndex) :
    navigatePrevious τ =
      { τ with currentIndex := τ.currentIndex - 1, showAnswer := false } := by
  unfold navigatePrevious
  exact if_pos h

/-! ### C6: local invertibility of advance/retreat -/

/-- C6: from any index that is neither 0 nor the last one, `navigateNext`
followed by `navigatePrevious` restores the original index and the whole
filter state (setting, task name, step length). -/
theorem advance_retreat_local (σ : ViewerState)
    (h0 : 0 < σ.currentIndex)
    (h1 : σ.currentIndex < (σ.filteredData.length : Int) - 1) :
    (navigatePrevious (navigateNext σ)).currentIndex = σ.currentIndex ∧
    (navigatePrevious (navigateNext σ)).currentSetting = σ.currentSetting ∧
    (navigatePrevious (navigateNext σ)).currentTaskName = σ.currentTaskName ∧
    (navigatePrevious (navigateNext σ)).currentStepLength
      = σ.currentStepLength := by
  rw [navigateNext_of_lt σ h1,
    navigatePrevious_of_pos _ (show (0 : Int) < σ.currentIndex + 1 by omega)]
  refine ⟨?_, rfl, rfl, rfl⟩
  show σ.currentIndex + 1 - 1 = σ.currentIndex
  omega

/-- Witness for C6 at `stMid` (index 1 of a 3-element filtered list). -/
theorem advance_retreat_local_witness :
    0 < stMid.currentIndex ∧
    stMid.currentIndex < (stMid.filteredData.length : Int) - 1 ∧
    (navigatePrevious (navigateNext stMid)).currentIndex
      = stMid.currentIndex := by
  refine ⟨by decide, by decide, ?_⟩
  exact (advance_retreat_local stMid (by decide) (by decide)).1

/-! ### C9: the failed advance at the global end is not a no-op -/

theorem moveToNextSetting_at_inverse (σ : ViewerState)
    (h : σ.currentSetting = .inverse) : moveToNextSetting σ = (false, σ) := by
  simp only [moveToNextSetting, h]
  rw [show settingsList.indexOf Setting.inverse = 2 from by decide]
  rw [if_neg (by decide : ¬(2 + 1 < settingsList.length))]

theorem moveToNextTask_at_end (σ : ViewerState)
    (hset : σ.currentSetting = .inverse)
    (htask : σ.currentTaskName ≠ "" →
      ¬(indexOfInt σ.availableTaskNames σ.currentTaskName <
        (σ.availableTaskNames.length : Int) - 1)) :
    moveToNextTask σ = (false, { σ with currentTaskName := "" }) := by
  by_cases ht : σ.currentTaskName = ""
  · unfold moveToNextTask
    rw [if_neg (not_not_intro ht)]
    rw [moveToNextSetting_at_inverse σ hset, withTask_eq_self σ ht]
  · unfold moveToNextTask
    rw [if_pos ht, if_neg (htask ht)]
    exact moveToNextSetting_at_inverse _ hset

/-- C9: when `navigateNext` is called at the last filtered item with the
setting already `inverse` and the step length and task name (whichever are
set) at the end of their option lists, the failed advance is not a no-op: it
clears `currentStepLength` and `currentTaskName`, returns `false`, and does
not re-filter, so `filteredData` and `currentIndex` keep the values of the
old, now-cleared filter. -/
theorem navigateNext_global_end_clears (σ : ViewerState)
    (hidx : σ.currentIndex = (σ.filteredData.length : Int) - 1)
    (hset : σ.currentSetting = .inverse)
    (hstep : ∀ n, σ.currentStepLength = some n →
      ¬(indexOfInt σ.availableStepLengths n <
        (σ.availableStepLengths.length : Int) - 1))
    (htask : σ.currentTaskName ≠ "" →
      ¬(indexOfInt σ.availableTaskNames σ.currentTaskName <
        (σ.availableTaskNames.length : Int) - 1))
    (hir : σ.currentStepLength ≠ none ∨ σ.currentTaskName ≠ "") :
    moveToNextCategory σ =
      (false, { σ with currentStepLength := none, currentTaskName := "" }) ∧
    navigateNext σ = { σ with currentStepLength := none, currentTaskName := "" } ∧
    navigateNext σ ≠ σ := by
  have hstclear : ({ σ with currentStepLength := none, currentTaskName := "" }
      : ViewerState) = { σ with currentTaskName := "" } ∨
      σ.currentStepLength ≠ none := by
    cases hcs : σ.currentStepLength with
    | none =>
      left
      obtain ⟨ad, fd, ci, cs, ct, csl, atn, asl, sa⟩ := σ
      simp only at hcs
      subst hcs
      rfl
    | some n => right; simp [hcs]
  have hcat : moveToNextCategory σ =
      (false, { σ with currentStepLength := none, currentTaskName := "" }) := by
    cases hcs : σ.currentStepLength with
    | none =>
      simp only [moveToNextCategory, hcs]
      rw [moveToNextTask_at_end σ hset htask]
      rcases hstclear with h | h
      · rw [h]
      · exact absurd hcs h
    | some n =>
      simp only [moveToNextCategory, hcs]
      rw [if_neg (hstep n hcs)]
      exact moveToNextTask_at_end { σ with currentStepLength := none }
        hset htask
  have hnav : navigateNext σ =
      { σ with currentStepLength := none, currentTaskName := "" } := by
    unfold navigateNext
    rw [if_neg (by omega : ¬(σ.currentIndex < (σ.filteredData.length : Int) - 1))]
    rw [hcat]
  refine ⟨hcat, hnav, ?_⟩
  intro heq
  rw [hnav] at heq
  rcases hir with h | h
  · exact h (congrArg ViewerState.currentStepLength heq).symm
  · exact h (congrArg ViewerState.currentTaskName heq).symm

/-- Witness for C9 at `stEnd` (last item, setting `inverse`, last task, last
step length). -/
theorem navigateNext_global_end_clears_witness :
    stEnd.currentIndex = (stEnd.filteredData.length : Int) - 1 ∧
    stEnd.currentSetting = .inverse ∧
    navigateNext stEnd =
      { stEnd with currentStepLength := none, currentTaskName := "" } ∧
    navigateNext stEnd ≠ stEnd := by
  have h := navigateNext_global_end_clears stEnd (by decide) (by decide)
    (by intro n hn
        have : n = 2 := by
          have := hn
          simp only [stEnd] at this
          exact (Option.some_inj.mp this).symm
        subst this
        decide)
    (by intro h
        decide)
    (by left; decide)
  exact ⟨by decide, by decide, h.2.1, h.2.2⟩

/-! ### C10: the index never goes negative -/

theorem populate_currentIndex (σ : ViewerState) :
    (populateStepLengthsForCurrentFilters σ).currentIndex = σ.currentIndex := by
  simp only [populateStepLengthsForCurrentFilters]
  (repeat' split) <;> rfl

theorem updateFilterUI_currentIndex_cases (σ : ViewerState) :
    (updateFilterUI σ).currentIndex = σ.currentIndex ∨
    (updateFilterUI σ).currentIndex = 0 := by
  simp only [updateFilterUI]
  (repeat' split) <;> first | (left; rfl) | (right; rfl)

theorem updateFilterUI_idx_nonneg (σ : ViewerState)
    (h : 0 ≤ σ.currentIndex) : 0 ≤ (updateFilterUI σ).currentIndex := by
  rcases updateFilterUI_currentIndex_cases σ with he | he <;> omega

theorem moveToNextSetting_idx_nonneg (σ : ViewerState)
    (h : 0 ≤ σ.currentIndex) : 0 ≤ (moveToNextSetting σ).2.currentIndex := by
  simp only [moveToNextSetting]
  split
  · exact updateFilterUI_idx_nonneg _ (by simp)
  · exact h

theorem moveToNextTask_idx_nonneg (σ : ViewerState)
    (h : 0 ≤ σ.currentIndex) : 0 ≤ (moveToNextTask σ).2.currentIndex := by
  simp only [moveToNextTask]
  split
  · split
    · apply updateFilterUI_idx_nonneg
      rw [populate_currentIndex]
      simp
    · exact moveToNextSetting_idx_nonneg _ h
  · exact moveToNextSetting_idx_nonneg _ h

theorem moveToNextCategory_idx_nonneg (σ : ViewerState)
    (h : 0 ≤ σ.currentIndex) : 0 ≤ (moveToNextCategory σ).2.currentIndex := by
  simp only [moveToNextCategory]
  split
  · split
    · exact updateFilterUI_idx_nonneg _ (by simp)
    · exact moveToNextTask_idx_nonneg _ h
  · exact moveToNextTask_idx_nonneg _ h

theorem moveToPreviousSetting_idx_nonneg (σ : ViewerState)
    (h : 0 ≤ σ.currentIndex) : 0 ≤ (moveToPreviousSetting σ).2.currentIndex := by
  simp only [moveToPreviousSetting]
  split
  · exact updateFilterUI_idx_nonneg _ (le_max_left _ _)
  · exact h

theorem moveToPreviousTask_idx_nonneg (σ : ViewerState)
    (h : 0 ≤ σ.currentIndex) : 0 ≤ (moveToPreviousTask σ).2.currentIndex := by
  simp only [moveToPreviousTask]
  split
  · split
    · exact updateFilterUI_idx_nonneg _ (le_max_left _ _)
    · exact moveToPreviousSetting_idx_nonneg _ h
  · exact moveToPreviousSetting_idx_nonneg _ h

theorem moveToPreviousCategory_idx_nonneg (σ : ViewerState)
    (h : 0 ≤ σ.currentIndex) : 0 ≤ (moveToPreviousCategory σ).2.currentIndex := by
  simp only [moveToPreviousCategory]
  split
  · split
    · exact updateFilterUI_idx_nonneg _ (le_max_left _ _)
    · exact moveToPreviousTask_idx_nonneg _ h
  · exact moveToPreviousTask_idx_nonneg _ h

/-- C10: starting from a non-negative index, every operation keeps
`currentIndex` non-negative; `filterData` (and hence every selector handler)
resets it to 0, so an empty filtered list leaves index 0 rather than -1, and
the empty list is displayed as the no-data state (`displayedSample = none`),
a valid state rather than an error. -/
theorem currentIndex_nonneg_ops (σ : ViewerState) (h : 0 ≤ σ.currentIndex) :
    0 ≤ (navigateNext σ).currentIndex ∧
    0 ≤ (navigatePrevious σ).currentIndex ∧
    0 ≤ (moveToPreviousCategory σ).2.currentIndex ∧
    (∀ v, (onSettingChange v σ).currentIndex = 0) ∧
    (∀ t, (onTaskChange t σ).currentIndex = 0) ∧
    (∀ v, (onStepChange v σ).currentIndex = 0) ∧
    (filterData σ).currentIndex = 0 ∧
    (σ.filteredData = [] → displayedSample σ = none) := by
  refine ⟨?_, ?_, moveToPreviousCategory_idx_nonneg σ h,
    fun v => rfl, fun t => rfl, fun v => rfl, rfl, ?_⟩
  · unfold navigateNext
    split
    · show 0 ≤ σ.currentIndex + 1
      omega
    · exact moveToNextCategory_idx_nonneg σ h
  · unfold navigatePrevious
    split
    · show 0 ≤ σ.currentIndex - 1
      omega
    · exact moveToPreviousCategory_idx_nonneg σ h
  · intro he
    unfold displayedSample
    rw [he]
    split
    · rfl
    · exact List.get?_nil

/-- Witness for C10 at `stRun`. -/
theorem currentIndex_nonneg_ops_witness :
    0 ≤ stRun.currentIndex ∧ 0 ≤ (navigateNext stRun).currentIndex ∧
    (filterData stRun).currentIndex = 0 := by
  have h := currentIndex_nonneg_ops stRun (by decide)
  exact ⟨by decide, h.1, h.2.2.2.2.2.2.1⟩

/-! ### C7: selector changes reset step, recompute options, refilter -/

theorem onSettingChange_eq (σ : ViewerState) (v : Setting) :
    onSettingChange v σ =
      { σ with
        currentSetting := v
        currentStepLength := (stepLengthsFor σ.allData v σ.currentTaskName).head?
        availableStepLengths := stepLengthsFor σ.allData v σ.currentTaskName
        filteredData := σ.allData.filter (matchesFilter v σ.currentTaskName
          (stepLengthsFor σ.allData v σ.currentTaskName).head?)
        currentIndex := 0
        showAnswer := false } := by
  unfold onSettingChange
  rw [populate_of_none _ rfl]
  rfl

theorem onTaskChange_eq (σ : ViewerState) (t : String) :
    onTaskChange t σ =
      { σ with
        currentTaskName := t
        currentStepLength := (stepLengthsFor σ.allData σ.currentSetting t).head?
        availableStepLengths := stepLengthsFor σ.allData σ.currentSetting t
        filteredData := σ.allData.filter (matchesFilter σ.currentSetting t
          (stepLengthsFor σ.allData σ.currentSetting t).head?)
        currentIndex := 0
        showAnswer := false } := by
  unfold onTaskChange
  rw [populate_of_none _ rfl]
  rfl

/-- C7: each setting/task selector change clears the step length, recomputes
`availableStepLengths` for the new (setting, taskName) pair, re-applies the
filter (with the step length the recompute step defaulted to the head of the
new options), and resets the index to 0. -/
theorem selector_change_resets (σ : ViewerState) (v : Setting) (t : String) :
    ((onSettingChange v σ).availableStepLengths =
        stepLengthsFor σ.allData v σ.currentTaskName ∧
      (onSettingChange v σ).currentStepLength =
        (stepLengthsFor σ.allData v σ.currentTaskName).head? ∧
      (onSettingChange v σ).filteredData = σ.allData.filter
        (matchesFilter v σ.currentTaskName
          (stepLengthsFor σ.allData v σ.currentTaskName).head?) ∧
      (onSettingChange v σ).currentIndex = 0) ∧
    ((onTaskChange t σ).availableStepLengths =
        stepLengthsFor σ.allData σ.currentSetting t ∧
      (onTaskChange t σ).currentStepLength =
        (stepLengthsFor σ.allData σ.currentSetting t).head? ∧
      (onTaskChange t σ).filteredData = σ.allData.filter
        (matchesFilter σ.currentSetting t
          (stepLengthsFor σ.allData σ.currentSetting t).head?) ∧
      (onTaskChange t σ).currentIndex = 0) := by
  rw [onSettingChange_eq, onTaskChange_eq]
  exact ⟨⟨rfl, rfl, rfl, rfl⟩, ⟨rfl, rfl, rfl, rfl⟩⟩

/-! ### C8: validity of the selected step length -/

/-- C8 (amended): after a setting or task selector change through its
handler, the step length is either unset or a member of the recomputed
`availableStepLengths` for the new (setting, taskName) pair — never a stale
value.  (Setting-level *navigation* moves, by contrast, do not recompute the
options and can install an invalid step length; see the counterexample.) -/
theorem handlers_step_valid (σ : ViewerState) (v : Setting) (t : String) :
    (∀ n, (onSettingChange v σ).currentStepLength = some n →
      n ∈ stepLengthsFor σ.allData v σ.currentTaskName) ∧
    (∀ n, (onTaskChange t σ).currentStepLength = some n →
      n ∈ stepLengthsFor σ.allData σ.currentSetting t) := by
  constructor
  · intro n hn
    rw [onSettingChange_eq] at hn
    have hn2 : (stepLengthsFor σ.allData v σ.currentTaskName).head? = some n := hn
    cases hL : stepLengthsFor σ.allData v σ.currentTaskName with
    | nil => rw [hL] at hn2; exact absurd hn2 (by simp)
    | cons a as =>
      rw [hL] at hn2
      have ha : a = n := by simpa using hn2
      exact ha ▸ List.mem_cons_self a as
  · intro n hn
    rw [onTaskChange_eq] at hn
    have hn2 : (stepLengthsFor σ.allData σ.currentSetting t).head? = some n := hn
    cases hL : stepLengthsFor σ.allData σ.currentSetting t with
    | nil => rw [hL] at hn2; exact absurd hn2 (by simp)
    | cons a as =>
      rw [hL] at hn2
      have ha : a = n := by simpa using hn2
      exact ha ▸ List.mem_cons_self a as

/-- Witness for C8's amended statement: changing the task to `u` at `stTask`
selects step length 2, which is in the recomputed options for task `u`. -/
theorem handlers_step_valid_witness :
    (onTaskChange "u" stTask).currentStepLength = some 2 ∧
    2 ∈ stepLengthsFor stTask.allData stTask.currentSetting "u" := by
  refine ⟨by decide, ?_⟩
  exact (handlers_step_valid stTask .snone "u").2 2 (by decide)

/-- Counterexample to C8 as stated: the invariant is *not* maintained by
every operation.  At `stMix` (all-settings view, no task, no step, last
item), `navigateNext` falls through to `moveToNextSetting`, which does not
recompute `availableStepLengths`; `updateFilterUI` then installs the stale
first option 2 as the step length although no sample matching the new
setting `forward` has step count 2. -/
theorem stepInvariant_not_preserved :
    stepInvariantB stMix = true ∧
    stepInvariantB (navigateNext stMix) = false := by
  constructor
  · decide
  · decide

/-! ### C3: forward category moves -/

theorem indexOfInt_of_mem {α : Type} [DecidableEq α] (l : List α) (a : α)
    (h : a ∈ l) : indexOfInt l a = (l.indexOf a : Int) := by
  unfold indexOfInt
  exact if_pos h

theorem afterSettingMove (σ : ViewerState) (v : Setting)
    (hstep : σ.currentStepLength = none) :
    (updateFilterUI (filterData { σ with currentSetting := v })).currentSetting
      = v ∧
    (updateFilterUI (filterData { σ with currentSetting := v })).currentTaskName
      = σ.currentTaskName ∧
    (updateFilterUI (filterData { σ with currentSetting := v })).currentIndex
      = 0 ∧
    (updateFilterUI (filterData { σ with currentSetting := v })).filteredData
      = σ.allData.filter (matchesFilter v σ.currentTaskName
        (updateFilterUI
          (filterData { σ with currentSetting := v })).currentStepLength) := by
  have hτ : (filterData { σ with currentSetting := v }).currentStepLength
      = none := hstep
  by_cases hA : σ.availableStepLengths = []
  · have hid : updateFilterUI (filterData { σ with currentSetting := v })
        = filterData { σ with currentSetting := v } := by
      simp [updateFilterUI, hτ, hA]
    rw [hid]
    exact ⟨rfl, rfl, rfl, rfl⟩
  · have hre : updateFilterUI (filterData { σ with currentSetting := v })
        = filterData { (filterData { σ with currentSetting := v }) with
            currentStepLength := σ.availableStepLengths.head? } := by
      exact updateFilterUI_of_none _ hτ hA
    rw [hre]
    exact ⟨rfl, rfl, rfl, rfl⟩

/-- C3: `moveToNextCategory` tries, in priority order: (1) with a step length
set and not last, advance it to the next larger available value, re-filter
and set index 0; (2) otherwise advance the task name to the next entry of
`availableTaskNames`, clear the step length, re-filter (without a step
constraint), recompute `availableStepLengths` for the new task (which also
defaults the step length to the head of the new options), index 0; (3)
otherwise advance the setting through the fixed cycle
`['', 'forward', 'inverse']`, re-filter, index 0; (4) at the last setting
with no task or step active, the call is a no-op returning `false`. -/
theorem moveToNextCategory_spec (σ : ViewerState) :
    (∀ n, σ.currentStepLength = some n →
      σ.availableStepLengths.Sorted (· < ·) →
      n ∈ σ.availableStepLengths →
      (∃ m ∈ σ.availableStepLengths, n < m) →
      ∃ m, n < m ∧ m ∈ σ.availableStepLengths ∧
        (∀ k ∈ σ.availableStepLengths, n < k → m ≤ k) ∧
        moveToNextCategory σ = (true,
          { σ with
            currentStepLength := some m
            filteredData := σ.allData.filter
              (matchesFilter σ.currentSetting σ.currentTaskName (some m))
            currentIndex := 0
            showAnswer := false })) ∧
    (σ.currentStepLength = none → σ.currentTaskName ≠ "" →
      σ.currentTaskName ∈ σ.availableTaskNames →
      σ.availableTaskNames.indexOf σ.currentTaskName + 1
        < σ.availableTaskNames.length →
      moveToNextCategory σ = (true,
        { σ with
          currentTaskName := σ.availableTaskNames.getD
            (σ.availableTaskNames.indexOf σ.currentTaskName + 1) ""
          currentStepLength := (stepLengthsFor σ.allData σ.currentSetting
            (σ.availableTaskNames.getD
              (σ.availableTaskNames.indexOf σ.currentTaskName + 1) "")).head?
          availableStepLengths := stepLengthsFor σ.allData σ.currentSetting
            (σ.availableTaskNames.getD
              (σ.availableTaskNames.indexOf σ.currentTaskName + 1) "")
          filteredData := σ.allData.filter (matchesFilter σ.currentSetting
            (σ.availableTaskNames.getD
              (σ.availableTaskNames.indexOf σ.currentTaskName + 1) "") none)
          currentIndex := 0
          showAnswer := false })) ∧
    (σ.currentStepLength = none → σ.currentTaskName = "" →
      σ.currentSetting ≠ .inverse →
      (moveToNextCategory σ).1 = true ∧
      (moveToNextCategory σ).2.currentSetting =
        settingsList.getD (settingsList.indexOf σ.currentSetting + 1) .snone ∧
      (moveToNextCategory σ).2.currentIndex = 0 ∧
      (moveToNextCategory σ).2.filteredData = σ.allData.filter
        (matchesFilter (moveToNextCategory σ).2.currentSetting ""
          (moveToNextCategory σ).2.currentStepLength)) ∧
    (σ.currentStepLength = none → σ.currentTaskName = "" →
      σ.currentSetting = .inverse → moveToNextCategory σ = (false, σ)) := by
  refine ⟨?_, ?_, ?_, ?_⟩
  · intro n hcs hsort hmem hex
    have hi : σ.availableStepLengths.indexOf n
        < σ.availableStepLengths.length := List.indexOf_lt_length.mpr hmem
    have hget : σ.availableStepLengths.get ⟨_, hi⟩ = n := List.indexOf_get hi
    obtain ⟨m0, hm0mem, hm0lt⟩ := hex
    obtain ⟨j, hj⟩ := List.mem_iff_get.mp hm0mem
    have hij : σ.availableStepLengths.indexOf n < j.val := by
      rcases Nat.lt_trichotomy (σ.availableStepLengths.indexOf n) j.val
        with h1 | h1 | h1
      · exact h1
      · exfalso
        have hnm : n = m0 := by
          rw [← hget, ← hj]
          congr 1
          exact Fin.ext h1
        omega
      · exfalso
        have hlt := hsort.rel_get_of_lt
          (show j < (⟨_, hi⟩ : Fin σ.availableStepLengths.length) from h1)
        rw [hj, hget] at hlt
        omega
    have hi1 : σ.availableStepLengths.indexOf n + 1
        < σ.availableStepLengths.length := by
      have := j.isLt
      omega
    refine ⟨σ.availableStepLengths.get ⟨_, hi1⟩, ?_, ?_, ?_, ?_⟩
    · have hlt := hsort.rel_get_of_lt
        (show (⟨_, hi⟩ : Fin σ.availableStepLengths.length) < ⟨_, hi1⟩ from
          Fin.mk_lt_mk.mpr (Nat.lt_succ_self _))
      rw [hget] at hlt
      exact hlt
    · exact List.get_mem _ _ _
    · intro k hk hnk
      obtain ⟨jk, hjk⟩ := List.mem_iff_get.mp hk
      have hijk : σ.availableStepLengths.indexOf n < jk.val := by
        rcases Nat.lt_trichotomy (σ.availableStepLengths.indexOf n) jk.val
          with h1 | h1 | h1
        · exact h1
        · exfalso
          have hnk2 : n = k := by
            rw [← hget, ← hjk]
            congr 1
            exact Fin.ext h1
          omega
        · exfalso
          have hlt := hsort.rel_get_of_lt
            (show jk < (⟨_, hi⟩ : Fin σ.availableStepLengths.length) from h1)
          rw [hjk, hget] at hlt
          omega
      rcases Nat.eq_or_lt_of_le
          (show σ.availableStepLengths.indexOf n + 1 ≤ jk.val from hijk)
        with he | hlt
      · rw [← hjk]
        apply le_of_eq
        congr 1
        exact Fin.ext he
      · have hx := hsort.rel_get_of_lt
          (show (⟨_, hi1⟩ : Fin σ.availableStepLengths.length) < jk from hlt)
        rw [hjk] at hx
        exact le_of_lt hx
    · simp only [moveToNextCategory, hcs]
      rw [indexOfInt_of_mem _ _ hmem]
      rw [if_pos (show (σ.availableStepLengths.indexOf n : Int) <
        (σ.availableStepLengths.length : Int) - 1 by omega)]
      rw [show ((σ.availableStepLengths.indexOf n : Int) + 1).toNat
        = σ.availableStepLengths.indexOf n + 1 from by omega]
      rw [show σ.availableStepLengths.getD
          (σ.availableStepLengths.indexOf n + 1) 0
        = σ.availableStepLengths.get ⟨_, hi1⟩ from by
          rw [List.getD_eq_getElem σ.availableStepLengths 0 hi1]
          simp [List.get_eq_getElem]]
      set m := σ.availableStepLengths.get
        ⟨σ.availableStepLengths.indexOf n + 1, hi1⟩ with hm
      have hu := updateFilterUI_of_mem
        (filterData { σ with currentStepLength := some m }) m
        rfl (by rw [hm]; exact List.get_mem _ _ _)
      rw [hu]
      rfl
  · intro hcs htne hmem hidx
    simp only [moveToNextCategory, hcs, moveToNextTask]
    rw [if_pos htne]
    rw [indexOfInt_of_mem _ _ hmem]
    rw [if_pos (show (σ.availableTaskNames.indexOf σ.currentTaskName : Int) <
      (σ.availableTaskNames.length : Int) - 1 by omega)]
    rw [show ((σ.availableTaskNames.indexOf σ.currentTaskName : Int) + 1).toNat
      = σ.availableTaskNames.indexOf σ.currentTaskName + 1 from by omega]
    rw [populate_of_none _ rfl]
    rw [updateFilterUI_of_head _ rfl]
    rfl
  · intro hcs htk hset
    have h1 : moveToNextCategory σ = moveToNextSetting σ := by
      simp only [moveToNextCategory, hcs, moveToNextTask]
      rw [if_neg (not_not_intro htk)]
    rw [h1]
    cases hv : σ.currentSetting with
    | inverse => exact absurd hv hset
    | snone =>
      have h2 : moveToNextSetting σ =
          (true, updateFilterUI (filterData
            { σ with currentSetting := Setting.forward })) := by
        simp only [moveToNextSetting, hv]
        rw [show settingsList.indexOf Setting.snone = 0 from by decide]
        rw [if_pos (by decide : 0 + 1 < settingsList.length)]
        rw [show settingsList.getD (0 + 1) Setting.snone = Setting.forward
          from by decide]
      obtain ⟨a1, a2, a3, a4⟩ := afterSettingMove σ Setting.forward hcs
      rw [h2]
      rw [show settingsList.getD (settingsList.indexOf Setting.snone + 1)
        Setting.snone = Setting.forward from by decide]
      refine ⟨rfl, a1, a3, ?_⟩
      rw [a4, a1, htk]
    | forward =>
      have h2 : moveToNextSetting σ =
          (true, updateFilterUI (filterData
            { σ with currentSetting := Setting.inverse })) := by
        simp only [moveToNextSetting, hv]
        rw [show settingsList.indexOf Setting.forward = 1 from by decide]
        rw [if_pos (by decide : 1 + 1 < settingsList.length)]
        rw [show settingsList.getD (1 + 1) Setting.snone = Setting.inverse
          from by decide]
      obtain ⟨a1, a2, a3, a4⟩ := afterSettingMove σ Setting.inverse hcs
      rw [h2]
      rw [show settingsList.getD (settingsList.indexOf Setting.forward + 1)
        Setting.snone = Setting.inverse from by decide]
      refine ⟨rfl, a1, a3, ?_⟩
      rw [a4, a1, htk]
  · intro hcs htk hset
    simp only [moveToNextCategory, hcs, moveToNextTask]
    rw [if_neg (not_not_intro htk)]
    exact moveToNextSetting_at_inverse σ hset

/-- Witness for C3 exercising all four branches at concrete states. -/
theorem moveToNextCategory_spec_witness :
    (∃ m, 1 < m ∧ m ∈ stRun.availableStepLengths ∧
      (∀ k ∈ stRun.availableStepLengths, 1 < k → m ≤ k) ∧
      moveToNextCategory stRun = (true,
        { stRun with
          currentStepLength := some m
          filteredData := stRun.allData.filter
            (matchesFilter stRun.currentSetting stRun.currentTaskName (some m))
          currentIndex := 0
          showAnswer := false })) ∧
    (moveToNextCategory stTask).1 = true ∧
    (moveToNextCategory stSet).1 = true ∧
    moveToNextCategory stDone = (false, stDone) := by
  refine ⟨?_, ?_, ?_, ?_⟩
  · exact (moveToNextCategory_spec stRun).1 1 rfl (by decide) (by decide)
      ⟨2, by decide, by decide⟩
  · have h := (moveToNextCategory_spec stTask).2.1 rfl (by decide) (by decide)
      (by decide)
    rw [h]
  · exact ((moveToNextCategory_spec stSet).2.2.1 rfl rfl (by decide)).1
  · exact (moveToNextCategory_spec stDone).2.2.2 rfl rfl rfl

/-! ### C4: backward category moves -/

theorem updateFilterUI_of_mem2 (τ : ViewerState) (i : Int) (n : Nat)
    (h : τ.currentStepLength = some n) (hm : n ∈ τ.availableStepLengths) :
    updateFilterUI { τ with currentIndex := i } = { τ with currentIndex := i } :=
  updateFilterUI_of_mem { τ with currentIndex := i } n h hm

theorem updateFilterUI_of_none2 (τ : ViewerState) (i : Int)
    (h : τ.currentStepLength = none) (hA : τ.availableStepLengths ≠ []) :
    updateFilterUI { τ with currentIndex := i } =
      filterData
        { τ with
          currentIndex := i
          currentStepLength := τ.availableStepLengths.head? } :=
  updateFilterUI_of_none { τ with currentIndex := i } h hA

theorem updateFilterUI_of_head2 (τ : ViewerState) (i : Int)
    (h : τ.currentStepLength = τ.availableStepLengths.head?) :
    updateFilterUI { τ with currentIndex := i } = { τ with currentIndex := i } :=
  updateFilterUI_of_head { τ with currentIndex := i } h

/-- C4 (amended): `moveToPreviousCategory` descends step, then task, then
setting.  A successful step-level change re-filters and sets the index to
`max 0 (len(FilteredList)-1)` (the last item of the new category).  A
successful task-level change likewise re-filters (without a step constraint),
recomputes `availableStepLengths` for the new task (defaulting the step
length to their head), and sets the index to `max 0 (len(FilteredList)-1)` of
the task-wide list, which `updateFilterUI` leaves unchanged.  A
setting-level change also assigns `max 0 (len-1)` first, but `updateFilterUI`
then installs the stale first step option (when the old `availableStepLengths`
is non-empty) and re-filters, leaving the final index at 0, not at
`len(FilteredList)-1`.  From the first category-level position (setting `''`,
no task, no step) the operation is a no-op. -/
theorem moveToPreviousCategory_amended (σ : ViewerState) :
    (∀ n, σ.currentStepLength = some n →
      n ∈ σ.availableStepLengths →
      0 < σ.availableStepLengths.indexOf n →
      moveToPreviousCategory σ = (true,
        { σ with
          currentStepLength := some (σ.availableStepLengths.getD
            (σ.availableStepLengths.indexOf n - 1) 0)
          filteredData := σ.allData.filter
            (matchesFilter σ.currentSetting σ.currentTaskName
              (some (σ.availableStepLengths.getD
                (σ.availableStepLengths.indexOf n - 1) 0)))
          currentIndex := max 0 (((σ.allData.filter
            (matchesFilter σ.currentSetting σ.currentTaskName
              (some (σ.availableStepLengths.getD
                (σ.availableStepLengths.indexOf n - 1) 0)))).length : Int) - 1)
          showAnswer := false })) ∧
    (σ.currentStepLength = none → σ.currentTaskName ≠ "" →
      σ.currentTaskName ∈ σ.availableTaskNames →
      0 < σ.availableTaskNames.indexOf σ.currentTaskName →
      moveToPreviousCategory σ = (true,
        { σ with
          currentTaskName := σ.availableTaskNames.getD
            (σ.availableTaskNames.indexOf σ.currentTaskName - 1) ""
          currentStepLength := (stepLengthsFor σ.allData σ.currentSetting
            (σ.availableTaskNames.getD
              (σ.availableTaskNames.indexOf σ.currentTaskName - 1) "")).head?
          availableStepLengths := stepLengthsFor σ.allData σ.currentSetting
            (σ.availableTaskNames.getD
              (σ.availableTaskNames.indexOf σ.currentTaskName - 1) "")
          filteredData := σ.allData.filter (matchesFilter σ.currentSetting
            (σ.availableTaskNames.getD
              (σ.availableTaskNames.indexOf σ.currentTaskName - 1) "") none)
          currentIndex := max 0 (((σ.allData.filter (matchesFilter
            σ.currentSetting (σ.availableTaskNames.getD
              (σ.availableTaskNames.indexOf σ.currentTaskName - 1) "")
            none)).length : Int) - 1)
          showAnswer := false })) ∧
    (σ.currentStepLength = none → σ.currentTaskName = "" →
      σ.currentSetting = .snone → moveToPreviousCategory σ = (false, σ)) ∧
    (σ.currentStepLength = none → σ.currentTaskName = "" →
      σ.currentSetting ≠ .snone → σ.availableStepLengths ≠ [] →
      (moveToPreviousCategory σ).1 = true ∧
      (moveToPreviousCategory σ).2.currentIndex = 0 ∧
      (moveToPreviousCategory σ).2.currentStepLength
        = σ.availableStepLengths.head?) := by
  refine ⟨?_, ?_, ?_, ?_⟩
  · intro n hcs hmem hpos
    have hlen : σ.availableStepLengths.indexOf n - 1
        < σ.availableStepLengths.length := by
      have := List.indexOf_lt_length.mpr hmem
      omega
    have hm2 : σ.availableStepLengths.getD
        (σ.availableStepLengths.indexOf n - 1) 0 ∈ σ.availableStepLengths := by
      rw [List.getD_eq_getElem σ.availableStepLengths 0 hlen]
      exact List.getElem_mem hlen
    simp only [moveToPreviousCategory, hcs]
    rw [indexOfInt_of_mem _ _ hmem]
    rw [if_pos (show (0 : Int) < (σ.availableStepLengths.indexOf n : Int)
      by omega)]
    rw [show ((σ.availableStepLengths.indexOf n : Int) - 1).toNat
      = σ.availableStepLengths.indexOf n - 1 from by omega]
    set m := σ.availableStepLengths.getD
      (σ.availableStepLengths.indexOf n - 1) 0 with hmdef
    have hu := updateFilterUI_of_mem2
      (filterData { σ with currentStepLength := some m })
      (max 0 (((filterData { σ with currentStepLength := some m
        }).filteredData.length : Int) - 1))
      m rfl hm2
    rw [hu]
    rfl
  · intro hcs htne hmem hpos
    simp only [moveToPreviousCategory, hcs, moveToPreviousTask]
    rw [if_pos htne]
    rw [indexOfInt_of_mem _ _ hmem]
    rw [if_pos (show (0 : Int) <
      (σ.availableTaskNames.indexOf σ.currentTaskName : Int) by omega)]
    rw [show ((σ.availableTaskNames.indexOf σ.currentTaskName : Int) - 1).toNat
      = σ.availableTaskNames.indexOf σ.currentTaskName - 1 from by omega]
    rw [populate_of_none _ rfl]
    rw [updateFilterUI_of_head2 _ _ rfl]
    rfl
  · intro hcs htk hst
    simp only [moveToPreviousCategory, hcs, moveToPreviousTask]
    rw [if_neg (not_not_intro htk)]
    simp only [moveToPreviousSetting, hst]
    rw [show settingsList.indexOf Setting.snone = 0 from by decide]
    rw [if_neg (by decide : ¬((0 : Nat) < 0))]
  · intro hcs htk hst hA
    have h1 : moveToPreviousCategory σ = moveToPreviousSetting σ := by
      simp only [moveToPreviousCategory, hcs, moveToPreviousTask]
      rw [if_neg (not_not_intro htk)]
    rw [h1]
    cases hv : σ.currentSetting with
    | snone => exact absurd hv hst
    | forward =>
      have h2 : moveToPreviousSetting σ = (true, updateFilterUI
          { (filterData { σ with currentSetting := Setting.snone }) with
            currentIndex := max 0 (((filterData { σ with
              currentSetting := Setting.snone
              }).filteredData.length : Int) - 1) }) := by
        simp only [moveToPreviousSetting, hv]
        rw [show settingsList.indexOf Setting.forward = 1 from by decide]
        rw [if_pos (by decide : (0 : Nat) < 1)]
        rw [show settingsList.getD (1 - 1) Setting.snone = Setting.snone
          from by decide]
      rw [h2]
      have hu := updateFilterUI_of_none2
        (filterData { σ with currentSetting := Setting.snone })
        (max 0 (((filterData { σ with currentSetting := Setting.snone
          }).filteredData.length : Int) - 1))
        hcs hA
      rw [hu]
      exact ⟨rfl, rfl, rfl⟩
    | inverse =>
      have h2 : moveToPreviousSetting σ = (true, updateFilterUI
          { (filterData { σ with currentSetting := Setting.forward }) with
            currentIndex := max 0 (((filterData { σ with
              currentSetting := Setting.forward
              }).filteredData.length : Int) - 1) }) := by
        simp only [moveToPreviousSetting, hv]
        rw [show settingsList.indexOf Setting.inverse = 2 from by decide]
        rw [if_pos (by decide : (0 : Nat) < 2)]
        rw [show settingsList.getD (2 - 1) Setting.snone = Setting.forward
          from by decide]
      rw [h2]
      have hu := updateFilterUI_of_none2
        (filterData { σ with currentSetting := Setting.forward })
        (max 0 (((filterData { σ with currentSetting := Setting.forward
          }).filteredData.length : Int) - 1))
        hcs hA
      rw [hu]
      exact ⟨rfl, rfl, rfl⟩

/-- Counterexample to C4 as stated: at `stPrev` (first item, setting
`forward`, first task, no step), `moveToPreviousCategory` succeeds at the
setting level, but the final index is 0 while the final filtered list has 2
items, so the index is not `len(FilteredList)-1` and the landed item is not
the last sample of the preceding category. -/
theorem moveToPreviousCategory_not_last_index :
    (moveToPreviousCategory stPrev).1 = true ∧
    (moveToPreviousCategory stPrev).2.currentIndex = 0 ∧
    (moveToPreviousCategory stPrev).2.filteredData.length = 2 := by
  refine ⟨by decide, by decide, by decide⟩

/-- Witness for C4's amended statement: a step-level backward move from
`stPrevStep` lands on the last item (index 1 of 2), a task-level backward
move from `stPrevTask` lands on the last item of the task-wide list (index 1
of 2), the first category-level position `stSet` is a no-op, and a
setting-level backward move from `stDone` ends at index 0. -/
theorem moveToPreviousCategory_amended_witness :
    moveToPreviousCategory stPrevStep = (true,
      { stPrevStep with
        currentStepLength := some 1
        filteredData := [sF1, sF1b]
        currentIndex := 1
        showAnswer := false }) ∧
    moveToPreviousCategory stPrevTask = (true,
      { stPrevTask with
        currentTaskName := "t"
        currentStepLength := some 1
        availableStepLengths := [1, 2]
        filteredData := [sF1, sF2]
        currentIndex := 1
        showAnswer := false }) ∧
    moveToPreviousCategory stSet = (false, stSet) ∧
    (moveToPreviousCategory stDone).2.currentIndex = 0 := by
  refine ⟨?_, ?_, ?_, ?_⟩
  · have h := (moveToPreviousCategory_amended stPrevStep).1 2 rfl
      (by decide) (by decide)
    rw [h]
    decide
  · have h := (moveToPreviousCategory_amended stPrevTask).2.1 rfl
      (by decide) (by decide) (by decide)
    rw [h]
    decide
  · exact (moveToPreviousCategory_amended stSet).2.2.1 rfl rfl rfl
  · exact ((moveToPreviousCategory_amended stDone).2.2.2 rfl rfl
      (by decide) (by decide)).2.1


/-! ### C5: the cross-product traversal -/

@[simp] theorem populate_currentSetting (σ : ViewerState) :
    (populateStepLengthsForCurrentFilters σ).currentSetting
      = σ.currentSetting := by
  simp only [populateStepLengthsForCurrentFilters]
  (repeat' split) <;> rfl

@[simp] theorem populate_currentTaskName (σ : ViewerState) :
    (populateStepLengthsForCurrentFilters σ).currentTaskName
      = σ.currentTaskName := by
  simp only [populateStepLengthsForCurrentFilters]
  (repeat' split) <;> rfl

@[simp] theorem updateFilterUI_currentSetting (σ : ViewerState) :
    (updateFilterUI σ).currentSetting = σ.currentSetting := by
  simp only [updateFilterUI]
  (repeat' split) <;> rfl

@[simp] theorem updateFilterUI_currentTaskName (σ : ViewerState) :
    (updateFilterUI σ).currentTaskName = σ.currentTaskName := by
  simp only [updateFilterUI]
  (repeat' split) <;> rfl

/-- `moveToNextSetting` either advances to a strictly different setting or is
the identity failure at `inverse`. -/
theorem moveToNextSetting_cases (τ : ViewerState) :
    ((moveToNextSetting τ).1 = true ∧
      (moveToNextSetting τ).2.currentSetting ≠ τ.currentSetting) ∨
    (τ.currentSetting = .inverse ∧ moveToNextSetting τ = (false, τ)) := by
  cases hv : τ.currentSetting with
  | inverse => right; exact ⟨rfl, moveToNextSetting_at_inverse τ hv⟩
  | snone =>
    left
    have h2 : moveToNextSetting τ = (true, updateFilterUI (filterData
        { τ with currentSetting := Setting.forward })) := by
      simp only [moveToNextSetting, hv]
      rw [show settingsList.indexOf Setting.snone = 0 from by decide]
      rw [if_pos (by decide : 0 + 1 < settingsList.length)]
      rw [show settingsList.getD (0 + 1) Setting.snone = Setting.forward
        from by decide]
    rw [h2]
    exact ⟨rfl, by simp⟩
  | forward =>
    left
    have h2 : moveToNextSetting τ = (true, updateFilterUI (filterData
        { τ with currentSetting := Setting.inverse })) := by
      simp only [moveToNextSetting, hv]
      rw [show settingsList.indexOf Setting.forward = 1 from by decide]
      rw [if_pos (by decide : 1 + 1 < settingsList.length)]
      rw [show settingsList.getD (1 + 1) Setting.snone = Setting.inverse
        from by decide]
    rw [h2]
    exact ⟨rfl, by simp⟩

/-- With distinct task names, `moveToNextTask` changes the task, or changes
the setting, or fails at the global end (possibly clearing the task). -/
theorem moveToNextTask_cases (τ : ViewerState)
    (hnodup : τ.availableTaskNames.Nodup) :
    (moveToNextTask τ).2.currentTaskName ≠ τ.currentTaskName ∨
    (moveToNextTask τ).2.currentSetting ≠ τ.currentSetting ∨
    (τ.currentTaskName ≠ "" ∧ τ.currentSetting = .inverse ∧
      moveToNextTask τ = (false, { τ with currentTaskName := "" })) ∨
    (τ.currentTaskName = "" ∧ τ.currentSetting = .inverse ∧
      moveToNextTask τ = (false, τ)) := by
  by_cases ht : τ.currentTaskName = ""
  · have he : moveToNextTask τ = moveToNextSetting τ := by
      unfold moveToNextTask
      rw [if_neg (not_not_intro ht)]
    rcases moveToNextSetting_cases τ with ⟨h1, h2⟩ | ⟨h1, h2⟩
    · right; left
      rw [he]
      exact h2
    · right; right; right
      exact ⟨ht, h1, by rw [he, h2]⟩
  · by_cases hc : indexOfInt τ.availableTaskNames τ.currentTaskName
        < (τ.availableTaskNames.length : Int) - 1
    · left
      have he : moveToNextTask τ = (true, updateFilterUI
          (populateStepLengthsForCurrentFilters (filterData
            { τ with
              currentTaskName := τ.availableTaskNames.getD
                (indexOfInt τ.availableTaskNames τ.currentTaskName + 1).toNat ""
              currentStepLength := none }))) := by
        simp only [moveToNextTask]
        rw [if_pos ht, if_pos hc]
      rw [show (moveToNextTask τ).2 = updateFilterUI
          (populateStepLengthsForCurrentFilters (filterData
            { τ with
              currentTaskName := τ.availableTaskNames.getD
                (indexOfInt τ.availableTaskNames τ.currentTaskName + 1).toNat ""
              currentStepLength := none })) from by rw [he]]
      rw [updateFilterUI_currentTaskName, populate_currentTaskName,
        filterData_currentTaskName]
      show τ.availableTaskNames.getD
        (indexOfInt τ.availableTaskNames τ.currentTaskName + 1).toNat ""
        ≠ τ.currentTaskName
      by_cases hmem : τ.currentTaskName ∈ τ.availableTaskNames
      · have hio := indexOfInt_of_mem _ _ hmem
        rw [hio] at hc
        have hi0 : τ.availableTaskNames.indexOf τ.currentTaskName
            < τ.availableTaskNames.length := List.indexOf_lt_length.mpr hmem
        have hi1 : τ.availableTaskNames.indexOf τ.currentTaskName + 1
            < τ.availableTaskNames.length := by omega
        rw [hio]
        rw [show ((τ.availableTaskNames.indexOf τ.currentTaskName : Int)
          + 1).toNat = τ.availableTaskNames.indexOf τ.currentTaskName + 1
          from by omega]
        rw [List.getD_eq_getElem τ.availableTaskNames "" hi1]
        intro hbad
        have hg : τ.availableTaskNames[τ.availableTaskNames.indexOf
            τ.currentTaskName] = τ.currentTaskName :=
          List.getElem_indexOf hi0
        have := (hnodup.getElem_inj_iff).mp (hbad.trans hg.symm)
        omega
      · have hio : indexOfInt τ.availableTaskNames τ.currentTaskName = -1 := by
          unfold indexOfInt
          rw [if_neg hmem]
        rw [hio] at hc
        have hlen : 0 < τ.availableTaskNames.length := by omega
        rw [hio]
        rw [show ((-1 : Int) + 1).toNat = 0 from by decide]
        rw [List.getD_eq_getElem τ.availableTaskNames "" hlen]
        intro hbad
        exact hmem (hbad ▸ List.getElem_mem hlen)
    · have he : moveToNextTask τ
          = moveToNextSetting { τ with currentTaskName := "" } := by
        simp only [moveToNextTask]
        rw [if_pos ht, if_neg hc]
      rcases moveToNextSetting_cases { τ with currentTaskName := "" }
        with ⟨h1, h2⟩ | ⟨h1, h2⟩
      · right; left
        rw [he]
        exact h2
      · right; right; left
        exact ⟨ht, h1, by rw [he, h2]⟩

/-- A successful step-level advance installs a step length that is available
and different from the old one (using sortedness of the option list). -/
theorem stepAdvance_changes (σ : ViewerState) (n : Nat)
    (hsort : σ.availableStepLengths.Sorted (· < ·))
    (hc : indexOfInt σ.availableStepLengths n
      < (σ.availableStepLengths.length : Int) - 1) :
    σ.availableStepLengths.getD
      (indexOfInt σ.availableStepLengths n + 1).toNat 0
      ∈ σ.availableStepLengths ∧
    σ.availableStepLengths.getD
      (indexOfInt σ.availableStepLengths n + 1).toNat 0 ≠ n := by
  by_cases hmem : n ∈ σ.availableStepLengths
  · have hio := indexOfInt_of_mem _ _ hmem
    rw [hio] at hc
    have hi0 : σ.availableStepLengths.indexOf n
        < σ.availableStepLengths.length := List.indexOf_lt_length.mpr hmem
    have hi1 : σ.availableStepLengths.indexOf n + 1
        < σ.availableStepLengths.length := by omega
    rw [hio]
    rw [show ((σ.availableStepLengths.indexOf n : Int) + 1).toNat
      = σ.availableStepLengths.indexOf n + 1 from by omega]
    rw [List.getD_eq_getElem σ.availableStepLengths 0 hi1]
    constructor
    · exact List.getElem_mem hi1
    · have hg : σ.availableStepLengths[σ.availableStepLengths.indexOf n]
          = n := List.getElem_indexOf hi0
      have hlt : σ.availableStepLengths[σ.availableStepLengths.indexOf n]
          < σ.availableStepLengths[σ.availableStepLengths.indexOf n + 1] :=
        List.pairwise_iff_getElem.mp hsort _ _ hi0 hi1 (Nat.lt_succ_self _)
      omega
  · have hio : indexOfInt σ.availableStepLengths n = -1 := by
      unfold indexOfInt
      rw [if_neg hmem]
    rw [hio] at hc
    have hlen : 0 < σ.availableStepLengths.length := by omega
    rw [hio]
    rw [show ((-1 : Int) + 1).toNat = 0 from by decide]
    rw [List.getD_eq_getElem σ.availableStepLengths 0 hlen]
    refine ⟨List.getElem_mem hlen, ?_⟩
    intro hbad
    exact hmem (hbad ▸ List.getElem_mem hlen)

/-- C5 (amended): with the option lists well-formed (sorted step lengths,
distinct task names), `navigateNext` is a strict no-op exactly at the global
end: index at or past the last filtered item, step length unset, task unset,
setting `inverse`.  Repeated `advance()` therefore terminates only there; but
the traversal is not a visit-each-item-once enumeration (see the
counterexample: items are revisited after task and setting boundaries). -/
theorem navigateNext_noop_iff (σ : ViewerState)
    (hsort : σ.availableStepLengths.Sorted (· < ·))
    (hnodup : σ.availableTaskNames.Nodup) :
    navigateNext σ = σ ↔
      (¬(σ.currentIndex < (σ.filteredData.length : Int) - 1) ∧
        σ.currentStepLength = none ∧ σ.currentTaskName = "" ∧
        σ.currentSetting = .inverse) := by
  constructor
  · intro heq
    by_cases hidx : σ.currentIndex < (σ.filteredData.length : Int) - 1
    · exfalso
      rw [navigateNext_of_lt σ hidx] at heq
      have hh := congrArg ViewerState.currentIndex heq
      simp only at hh
      omega
    · refine ⟨hidx, ?_⟩
      have heq2 : (moveToNextCategory σ).2 = σ := by
        unfold navigateNext at heq
        rw [if_neg hidx] at heq
        exact heq
      cases hcs : σ.currentStepLength with
      | some n =>
        exfalso
        by_cases hc : indexOfInt σ.availableStepLengths n
            < (σ.availableStepLengths.length : Int) - 1
        · obtain ⟨hm2, hne⟩ := stepAdvance_changes σ n hsort hc
          set M := σ.availableStepLengths.getD
            (indexOfInt σ.availableStepLengths n + 1).toNat 0 with hM
          have he : moveToNextCategory σ = (true, updateFilterUI (filterData
              { σ with currentStepLength := some M })) := by
            rw [hM]
            simp only [moveToNextCategory, hcs]
            rw [if_pos hc]
          have hu := updateFilterUI_of_mem
            (filterData { σ with currentStepLength := some M }) M rfl hm2
          rw [he, hu] at heq2
          have hh := congrArg ViewerState.currentStepLength heq2
          rw [hcs] at hh
          exact hne (Option.some_inj.mp hh)
        · have he : moveToNextCategory σ
              = moveToNextTask { σ with currentStepLength := none } := by
            simp only [moveToNextCategory, hcs]
            rw [if_neg hc]
          rw [he] at heq2
          rcases moveToNextTask_cases { σ with currentStepLength := none }
              hnodup with h | h | ⟨ht, hsi, hfe⟩ | ⟨ht, hsi, hfe⟩
          · have hh := congrArg ViewerState.currentTaskName heq2
            exact h hh
          · have hh := congrArg ViewerState.currentSetting heq2
            exact h hh
          · rw [hfe] at heq2
            have hh := congrArg ViewerState.currentStepLength heq2
            rw [hcs] at hh
            exact Option.noConfusion hh
          · rw [hfe] at heq2
            have hh := congrArg ViewerState.currentStepLength heq2
            rw [hcs] at hh
            exact Option.noConfusion hh
      | none =>
        have he : moveToNextCategory σ = moveToNextTask σ := by
          simp only [moveToNextCategory, hcs]
        rw [he] at heq2
        rcases moveToNextTask_cases σ hnodup
            with h | h | ⟨ht, hsi, hfe⟩ | ⟨ht, hsi, hfe⟩
        · exact absurd (congrArg ViewerState.currentTaskName heq2) h
        · exact absurd (congrArg ViewerState.currentSetting heq2) h
        · exfalso
          rw [hfe] at heq2
          have hh := congrArg ViewerState.currentTaskName heq2
          exact ht hh.symm
        · exact ⟨rfl, ht, hsi⟩
  · rintro ⟨hidx, hcs, htk, hst⟩
    unfold navigateNext
    rw [if_neg hidx]
    have he : moveToNextCategory σ = moveToNextTask σ := by
      simp only [moveToNextCategory, hcs]
    rw [he]
    have he2 : moveToNextTask σ = moveToNextSetting σ := by
      unfold moveToNextTask
      rw [if_neg (not_not_intro htk)]
    rw [he2, moveToNextSetting_at_inverse σ hst]

/-- Counterexample to C5 as stated: from the very first composite position
`stRun` (setting `''`, first task, first step, index 0) over a 2-sample
dataset, the displayed items after 0, 1, 2 advances are `sF1`, `sF2`, `sF1`:
the first item is shown again after the second advance (the setting boundary
re-enters already-visited data), and that second advance is not a no-op.  So
no `N` makes "exactly `N` advances visit every item exactly once and then a
further advance is a no-op" true. -/
theorem advance_revisits_items :
    displayedSample stRun = some sF1 ∧
    displayedSample (navigateNext stRun) = some sF2 ∧
    displayedSample (navigateNext (navigateNext stRun)) = some sF1 ∧
    navigateNext (navigateNext stRun) ≠ navigateNext stRun := by
  exact ⟨by decide, by decide, by decide, by decide⟩

/-- Witness for C5's amended statement at the global end `stDone`. -/
theorem navigateNext_noop_iff_witness :
    stDone.availableStepLengths.Sorted (· < ·) ∧
    stDone.availableTaskNames.Nodup ∧
    navigateNext stDone = stDone := by
  refine ⟨by decide, by decide, ?_⟩
  exact (navigateNext_noop_iff stDone (by decide) (by decide)).mpr
    ⟨by decide, rfl, rfl, rfl⟩

end DatasetViewer
